/-
Verification of the square-root Kalman filtering engine of the `tornadox`
repository (python sources: `tornadox/step.py`, `tornado/ek0.py`,
`tornado/kalman.py`, plus tests).

Matrices/vectors are embedded over the real numbers (the source computes with
floating point; every claim is settled exactly over ℝ, which is the intended
"to numerical tolerance" reading).  External LAPACK routines invoked by the
source (`jax.scipy.linalg.qr`, `jnp.linalg.cholesky`) are not part of the
repository: they enter the embedding as explicit arguments together with
hypotheses stating their documented contracts (orthonormal `Q`, triangular
`R`, `M = Q·R`).
-/
import Mathlib

open Matrix BigOperators

/-! # Definitions -/

/-- `M` is lower triangular: every entry strictly above the diagonal is `0`. -/
def IsLowerTriangular {n : ℕ} {K : Type} [Zero K] (M : Matrix (Fin n) (Fin n) K) : Prop :=
  ∀ i j : Fin n, i < j → M i j = 0

/-- `M` is upper triangular: every entry strictly below the diagonal is `0`. -/
def IsUpperTriangular {n : ℕ} {K : Type} [Zero K] (M : Matrix (Fin n) (Fin n) K) : Prop :=
  ∀ i j : Fin n, j < i → M i j = 0

/-- `vec_trick_mul_full` from `tornado/ek0.py` (lines 145-149):
entry `k` of `(K2 @ V @ K1.T).reshape(d1*d3, order="F")` where
`V = v.reshape(d4, d2, order="F")`. -/
def vec_trick_mul_full {d1 d2 d3 d4 : ℕ} (K1 : Matrix (Fin d1) (Fin d2) ℝ)
    (K2 : Matrix (Fin d3) (Fin d4) ℝ) (v : Fin (d2 * d4) → ℝ) : Fin (d1 * d3) → ℝ :=
  fun k =>
    ∑ l : Fin d4, ∑ c : Fin d2,
      K2 (finProdFinEquiv.symm k).2 l * v (finProdFinEquiv (c, l)) *
        K1 (finProdFinEquiv.symm k).1 c

/-- `vec_trick_mul_right` from `tornado/ek0.py` (lines 152-157):
entry `k` of `(K2 @ V).reshape(_, order="F")` where
`V = v.reshape(d4, v.size // d4, order="F")` (here `v.size = d * d4`). -/
def vec_trick_mul_right {d3 d4 : ℕ} (K2 : Matrix (Fin d3) (Fin d4) ℝ) (d : ℕ)
    (v : Fin (d * d4) → ℝ) : Fin (d * d3) → ℝ :=
  fun k =>
    ∑ l : Fin d4,
      K2 (finProdFinEquiv.symm k).2 l * v (finProdFinEquiv ((finProdFinEquiv.symm k).1, l))

/-- Dense Kronecker product on flat indices, following the numpy layout
`kron(K1, K2)[a*d3+b, c*d4+e] = K1[a,c] * K2[b,e]`. -/
def kron_flat {d1 d2 d3 d4 : ℕ} (K1 : Matrix (Fin d1) (Fin d2) ℝ)
    (K2 : Matrix (Fin d3) (Fin d4) ℝ) : Matrix (Fin (d1 * d3)) (Fin (d2 * d4)) ℝ :=
  fun k l =>
    K1 (finProdFinEquiv.symm k).1 (finProdFinEquiv.symm l).1 *
      K2 (finProdFinEquiv.symm k).2 (finProdFinEquiv.symm l).2

/-- The constructor fields of `AdaptiveSteps` (`tornadox/step.py` lines 50-64);
`small`/`large` are the two components of `max_changes`. -/
structure AdaptiveParams where
  abstol : ℝ
  reltol : ℝ
  small : ℝ
  large : ℝ
  safety_scale : ℝ
  min_step : ℝ
  max_step : ℝ

/-- `AdaptiveSteps.suggest` (`tornadox/step.py` lines 69-90): scale the inverse
error by the safety factor and the local convergence rate, clamp the change
factor, multiply into the previous step, and fail outside `[min_step, max_step]`.
The exponentiation is real (`Real.rpow`), as `ratio ** (1.0 / rate)` in the
source. -/
noncomputable def AdaptiveSteps.suggest (r : AdaptiveParams)
    (previous_dt scaled_error p : ℝ) : Except String ℝ :=
  let change := r.safety_scale * (1 / scaled_error) ^ (1 / p : ℝ)
  let dt := if change < r.small then r.small * previous_dt
    else if r.large < change then r.large * previous_dt
    else change * previous_dt
  if dt < r.min_step then .error ("Step-size smaller than minimum step-size")
  else if r.max_step < dt then .error ("Step-size larger than maximum step-size")
  else .ok dt

/-- `AdaptiveSteps.is_accepted` (`tornadox/step.py` lines 92-93). -/
def AdaptiveSteps.is_accepted (scaled_error : ℝ) : Prop := scaled_error < 1

/-- numpy semantics of the guard in `scale_error_estimate` (line 97): `arr.size`
is a Python `int` and `jnp.isscalar` of an `int` is `True`, for every array. -/
def jnp_isscalar_of_size (_n : ℕ) : Bool := true

/-- Sum of squares; `jnp.linalg.norm l = Real.sqrt (sum_sq l)`. -/
noncomputable def sum_sq (l : List ℝ) : ℝ := (l.map fun x => x ^ 2).sum

/-- numpy 1-D broadcasting for the elementwise division (line 103): equal
lengths divide pointwise, a length-1 operand is broadcast, anything else
raises. -/
noncomputable def broadcast_div (u t : List ℝ) : Option (List ℝ) :=
  if u.length = t.length then some (List.zipWith (· / ·) u t)
  else if u.length = 1 then some (t.map fun x => u.headI / x)
  else if t.length = 1 then some (u.map fun x => x / t.headI)
  else none

/-- `AdaptiveSteps.scale_error_estimate` (`tornadox/step.py` lines 95-105):
guard, per-component tolerance `abstol + reltol * reference_state` (the signed
reference state, as in the source), then `norm(ratio) / sqrt(dim)`. -/
noncomputable def AdaptiveSteps.scale_error_estimate (r : AdaptiveParams)
    (unscaled_error_estimate reference_state : List ℝ) : Except String ℝ :=
  if ¬ jnp_isscalar_of_size unscaled_error_estimate.length = true ∧
      unscaled_error_estimate.length ≠ reference_state.length then
    .error ("Unscaled error estimate needs same shape as reference state.")
  else
    let tolerance := reference_state.map fun x => r.abstol + r.reltol * x
    match broadcast_div unscaled_error_estimate tolerance with
    | none => .error ("broadcast error")
    | some rs => .ok (Real.sqrt (sum_sq rs) / Real.sqrt rs.length)

/-- `ConstantSteps.scale_error_estimate` (`tornadox/step.py` lines 41-43):
returns `None` for every input. -/
def ConstantSteps.scale_error_estimate (_dt : ℝ)
    (_unscaled_error_estimate _reference_state : List ℝ) : Option ℝ :=
  none

/-- The clamped proposal `previous_dt * clamp(change, small, large)` that the
spec describes for `AdaptiveSteps.suggest`. -/
noncomputable def AdaptiveSteps.suggest_spec_dt (r : AdaptiveParams)
    (previous_dt scaled_error p : ℝ) : ℝ :=
  previous_dt * max r.small (min r.large (r.safety_scale * (1 / scaled_error) ^ (1 / p : ℝ)))

/-- Modelled from the spec: `tril_to_positive_tril(M)` from the missing module
`tornado/sqrt.py` flips the sign of every column whose diagonal entry is
negative; columns with nonnegative diagonal — including the exact-zero special
case, where `sign(0)` is overridden to `+1` — are left unchanged. -/
def tril_to_positive_tril {n : ℕ} {K : Type} [LinearOrderedField K]
    (M : Matrix (Fin n) (Fin n) K) : Matrix (Fin n) (Fin n) K :=
  fun i j => (if M j j < 0 then -1 else 1) * M i j

/-- Modelled from the spec: the vertical stack `[S1ᵀ; S2ᵀ]` that
`propagate_cholesky_factor` (missing module `tornado/sqrt.py`) QR-factorizes. -/
def cholesky_stack {n m : ℕ} (S1 : Matrix (Fin n) (Fin n) ℝ)
    (S2 : Matrix (Fin n) (Fin m) ℝ) : Matrix (Fin n ⊕ Fin m) (Fin n) ℝ :=
  Matrix.fromRows S1.transpose S2.transpose

/-- Modelled from the spec: `propagate_cholesky_factor(S1, S2)` QR-factorizes
the stack `[S1ᵀ; S2ᵀ]`, takes the upper-triangular factor, transposes it and
sign-corrects with `tril_to_positive_tril`.  The QR factorization itself is an
external LAPACK routine, so the triangular factor `R` is an explicit argument
here; the theorems constrain it by the QR contract. -/
noncomputable def propagate_cholesky_factor {n m : ℕ} (_S1 : Matrix (Fin n) (Fin n) ℝ)
    (_S2 : Matrix (Fin n) (Fin m) ℝ) (R : Matrix (Fin n) (Fin n) ℝ) :
    Matrix (Fin n) (Fin n) ℝ :=
  tril_to_positive_tril R.transpose

/-- `smoother_step_traditional` (`tornado/kalman.py` lines 28-37).  The final
`jnp.linalg.cholesky` is an external routine, passed as the oracle `chol`. -/
noncomputable def smoother_step_traditional {d : ℕ}
    (chol : Matrix (Fin d) (Fin d) ℝ → Matrix (Fin d) (Fin d) ℝ)
    (m : Fin d → ℝ) (sc : Matrix (Fin d) (Fin d) ℝ) (m_fut : Fin d → ℝ)
    (sc_fut sgain : Matrix (Fin d) (Fin d) ℝ) (mp : Fin d → ℝ)
    (scp : Matrix (Fin d) (Fin d) ℝ) :
    (Fin d → ℝ) × Matrix (Fin d) (Fin d) ℝ :=
  let c := sc * scᵀ
  let c_fut := sc_fut * sc_futᵀ
  let cp := scp * scpᵀ
  let new_mean := m - sgain.mulVec (mp - m_fut)
  let new_cov := c - sgain * (cp - c_fut) * sgainᵀ
  (new_mean, chol new_cov)

/-- The stacked block matrix `M` assembled by `smoother_step_sqrt`
(`tornado/kalman.py` lines 45-53): block rows
`[xᵀ, scᵀ]`, `[sqᵀ, 0]`, `[0, sc_futᵀ·sgainᵀ]`. -/
def smoother_stack {d : ℕ} (sc sc_fut sgain sq x : Matrix (Fin d) (Fin d) ℝ) :
    Matrix ((Fin d ⊕ Fin d) ⊕ Fin d) (Fin d ⊕ Fin d) ℝ :=
  Matrix.fromRows (Matrix.fromBlocks xᵀ scᵀ sqᵀ 0)
    (Matrix.fromColumns 0 (sc_futᵀ * sgainᵀ))

/-- `smoother_step_sqrt` (`tornado/kalman.py` lines 40-56): the smoothed mean
`m - sgain @ (mp - m_fut)`, and as covariance factor the transposed top-right
block `R[:d, d:].T` of the triangular factor `R` of the QR factorization of
the stack.  The QR routine is external: `R` is an explicit argument,
constrained by the QR contract in the theorems. -/
noncomputable def smoother_step_sqrt {d : ℕ} (m : Fin d → ℝ)
    (_sc : Matrix (Fin d) (Fin d) ℝ) (m_fut : Fin d → ℝ)
    (_sc_fut sgain _sq : Matrix (Fin d) (Fin d) ℝ) (mp : Fin d → ℝ)
    (_x : Matrix (Fin d) (Fin d) ℝ)
    (R : Matrix (Fin d ⊕ Fin d) (Fin d ⊕ Fin d) ℝ) :
    (Fin d → ℝ) × Matrix (Fin d) (Fin d) ℝ :=
  (m - sgain.mulVec (mp - m_fut), (R.toBlocks₁₂)ᵀ)

noncomputable def smEx_sc : Matrix (Fin 2) (Fin 2) ℝ := !![1, 0; 0, 1]

noncomputable def smEx_sq : Matrix (Fin 2) (Fin 2) ℝ := !![4, 0; 0, 3]

noncomputable def smEx_x : Matrix (Fin 2) (Fin 2) ℝ := !![3, 0; 5, 0]

noncomputable def smEx_sgain : Matrix (Fin 2) (Fin 2) ℝ :=
  !![102/625, -45/625; 170/625, -75/625]

noncomputable def smEx_scp : Matrix (Fin 2) (Fin 2) ℝ := !![5, 0; 3, 5]

noncomputable def smEx_R : Matrix (Fin 2 ⊕ Fin 2) (Fin 2 ⊕ Fin 2) ℝ :=
  Matrix.fromBlocks !![5, 3; 0, 5] !![3/5, 0; 16/25, 0] 0 !![12/25, 0; 0, 1]

noncomputable def smEx_Q : Matrix ((Fin 2 ⊕ Fin 2) ⊕ Fin 2) (Fin 2 ⊕ Fin 2) ℝ :=
  Matrix.fromRows
    (Matrix.fromBlocks !![3/5, 16/25; 0, 0] !![12/25, 0; 0, 1]
      !![4/5, -12/25; 0, 3/5] !![-9/25, 0; -4/5, 0])
    (Matrix.fromColumns 0 0)

/-- The step-rule configurations of `tornadox/step.py` as a closed type:
`ConstantSteps(dt)` and `AdaptiveSteps(...)`; `EK0.attempt_step` dispatches on
`isinstance(self.steprule, step.AdaptiveSteps)`. -/
inductive StepRule where
  | constant (dt : ℝ)
  | adaptive (r : AdaptiveParams)

/-- The attributes stored by `EK0.initialize` (`tornado/ek0.py` lines 62-88)
that `attempt_step` reads: the dt-independent preconditioned 1-D operators
`A, Ql`, the preconditioner pair `P(dt), PI(dt)`, the projections `E0, E1`
(full) and `e1` (1-D), the vector field `f`, the step rule, and the two
routines of the module `tornado/sqrt.py` (not present under `src/`):
`prop = propagate_cholesky_factor` and `upd = update_sqrt` (returning
`(Cl_new, K, Sl)`), which enter the embedding as explicit function-valued
fields. -/
structure EK0Ops (d q : ℕ) where
  A : Matrix (Fin (q+1)) (Fin (q+1)) ℝ
  Ql : Matrix (Fin (q+1)) (Fin (q+1)) ℝ
  P : ℝ → Matrix (Fin (q+1)) (Fin (q+1)) ℝ
  PI : ℝ → Matrix (Fin (q+1)) (Fin (q+1)) ℝ
  E0 : Matrix (Fin d) (Fin (d*(q+1))) ℝ
  E1 : Matrix (Fin d) (Fin (d*(q+1))) ℝ
  e1 : Matrix (Fin 1) (Fin (q+1)) ℝ
  f : ℝ → (Fin d → ℝ) → (Fin d → ℝ)
  prop : Matrix (Fin (q+1)) (Fin (q+1)) ℝ → Matrix (Fin (q+1)) (Fin (q+1)) ℝ →
    Matrix (Fin (q+1)) (Fin (q+1)) ℝ
  upd : Matrix (Fin 1) (Fin (q+1)) ℝ → Matrix (Fin (q+1)) (Fin (q+1)) ℝ →
    Matrix (Fin (q+1)) (Fin (q+1)) ℝ × Matrix (Fin (q+1)) (Fin 1) ℝ ×
      Matrix (Fin 1) (Fin 1) ℝ
  steprule : StepRule

/-- `ODEFilterState` for the Kronecker EK0 (`tornado/odesolver.py`, consumed
in `tornado/ek0.py`): time, optional error estimate, reference state, and the
state random variable as mean (length `d·(q+1)`) and `(q+1)×(q+1)` Kronecker
covariance factor. -/
structure ODEFilterState (d q : ℕ) where
  t : ℝ
  error_estimate : Option (Fin d → ℝ)
  reference_state : Fin d → ℝ
  mean : Fin (d*(q+1)) → ℝ
  cov_cholesky : Matrix (Fin (q+1)) (Fin (q+1)) ℝ

/-- `EK0.attempt_step` (`tornado/ek0.py` lines 90-142).  Its first statement
(line 93) reads `_m, _Cl = y.mean, Y.cov_cholesky`, where `y` is an unbound
name: the function binds only `Y = state.y` (line 92) and neither the
function nor the module ever binds a bare `y`.  Every call therefore raises
`NameError` at line 93, before the predict / measure / calibrate / update
pipeline of lines 96-142 is reached. -/
def EK0.attempt_step {d q : ℕ} (_ops : EK0Ops d q)
    (_state : ODEFilterState d q) (_dt : ℝ) :
    Except String (ODEFilterState d q) :=
  Except.error ("NameError: y is not defined")

/-- A concrete EK0 configuration, `d = 1`, `q = 0`, constant step rule:
trivial operators, `f(t, y) = y`, identity propagate oracle and zero-gain
update oracle. -/
noncomputable def ek0_ops_ex : EK0Ops 1 0 where
  A := !![1]
  Ql := !![1]
  P := fun _ => !![1]
  PI := fun _ => !![1]
  E0 := !![1]
  E1 := !![1]
  e1 := !![1]
  f := fun _ y => y
  prop := fun a _ => a
  upd := fun _ c => (c, !![0], !![0])
  steprule := .constant 1

/-- A concrete EK0 filter state for `ek0_ops_ex`. -/
noncomputable def ek0_state_ex : ODEFilterState 1 0 where
  t := 0
  error_estimate := none
  reference_state := ![0]
  mean := ![0]
  cov_cholesky := !![1]

/-! # Theorems -/

lemma kron_flat_mulVec {d1 d2 d3 d4 : ℕ} (K1 : Matrix (Fin d1) (Fin d2) ℝ)
    (K2 : Matrix (Fin d3) (Fin d4) ℝ) (v : Fin (d2 * d4) → ℝ) (k : Fin (d1 * d3)) :
    (kron_flat K1 K2).mulVec v k =
      ∑ c : Fin d2, ∑ l : Fin d4,
        K1 (finProdFinEquiv.symm k).1 c * K2 (finProdFinEquiv.symm k).2 l *
          v (finProdFinEquiv (c, l)) := by
  unfold Matrix.mulVec Matrix.dotProduct kron_flat
  rw [← Equiv.sum_comp (finProdFinEquiv (m := d2) (n := d4))]
  rw [Fintype.sum_prod_type]
  simp

/-- C7: `vec_trick_mul_right(K2, v) = (I_d ⊗ K2) · v` and
`vec_trick_mul_full(K1, K2, v) = (K1 ⊗ K2) · v`: the reshape-multiply-reshape
application coincides with explicit Kronecker-product multiplication. -/
theorem vec_trick_mul_eq_kron_mulVec {d1 d2 d3 d4 d : ℕ}
    (K1 : Matrix (Fin d1) (Fin d2) ℝ) (K2 : Matrix (Fin d3) (Fin d4) ℝ)
    (v : Fin (d2 * d4) → ℝ) (w : Fin (d * d4) → ℝ) :
    vec_trick_mul_right K2 d w = (kron_flat (1 : Matrix (Fin d) (Fin d) ℝ) K2).mulVec w ∧
      vec_trick_mul_full K1 K2 v = (kron_flat K1 K2).mulVec v := by
  constructor
  · funext k
    rw [kron_flat_mulVec,
      Fintype.sum_eq_single ((finProdFinEquiv.symm k).1)
        (fun c hc => Finset.sum_eq_zero fun l _ => by
          have hc2 : k.divNat ≠ c := by simpa using Ne.symm hc
          simp [Matrix.one_apply, hc2])]
    unfold vec_trick_mul_right
    refine Finset.sum_congr rfl fun l _ => ?_
    simp [Matrix.one_apply]
  · funext k
    rw [kron_flat_mulVec]
    unfold vec_trick_mul_full
    rw [Finset.sum_comm]
    refine Finset.sum_congr rfl fun c _ => Finset.sum_congr rfl fun l _ => ?_
    ring

lemma AdaptiveSteps.suggest_eq (r : AdaptiveParams) (previous_dt scaled_error p : ℝ) :
    AdaptiveSteps.suggest r previous_dt scaled_error p =
      if (if r.safety_scale * (1 / scaled_error) ^ (1 / p : ℝ) < r.small then
            r.small * previous_dt
          else if r.large < r.safety_scale * (1 / scaled_error) ^ (1 / p : ℝ) then
            r.large * previous_dt
          else r.safety_scale * (1 / scaled_error) ^ (1 / p : ℝ) * previous_dt) < r.min_step
        then .error ("Step-size smaller than minimum step-size")
      else if r.max_step <
          (if r.safety_scale * (1 / scaled_error) ^ (1 / p : ℝ) < r.small then
            r.small * previous_dt
          else if r.large < r.safety_scale * (1 / scaled_error) ^ (1 / p : ℝ) then
            r.large * previous_dt
          else r.safety_scale * (1 / scaled_error) ^ (1 / p : ℝ) * previous_dt)
        then .error ("Step-size larger than maximum step-size")
      else .ok
        (if r.safety_scale * (1 / scaled_error) ^ (1 / p : ℝ) < r.small then
            r.small * previous_dt
          else if r.large < r.safety_scale * (1 / scaled_error) ^ (1 / p : ℝ) then
            r.large * previous_dt
          else r.safety_scale * (1 / scaled_error) ^ (1 / p : ℝ) * previous_dt) :=
  rfl

/-- C5: `suggest` returns `previous_dt` multiplied by
`safety·(1/scaled_error)^(1/p)` clamped to `[small, large]`, and raises
exactly when that proposed step falls outside `[min_step, max_step]`. -/
theorem adaptive_suggest_spec (r : AdaptiveParams) (previous_dt scaled_error p : ℝ)
    (_herr : 0 < scaled_error) (_hp : 0 < p) (hsl : r.small ≤ r.large) :
    (r.min_step ≤ AdaptiveSteps.suggest_spec_dt r previous_dt scaled_error p ∧
        AdaptiveSteps.suggest_spec_dt r previous_dt scaled_error p ≤ r.max_step →
      AdaptiveSteps.suggest r previous_dt scaled_error p =
        .ok (AdaptiveSteps.suggest_spec_dt r previous_dt scaled_error p)) ∧
    (AdaptiveSteps.suggest_spec_dt r previous_dt scaled_error p < r.min_step ∨
        r.max_step < AdaptiveSteps.suggest_spec_dt r previous_dt scaled_error p →
      ∃ msg, AdaptiveSteps.suggest r previous_dt scaled_error p = .error msg) := by
  have hbranch :
      (if r.safety_scale * (1 / scaled_error) ^ (1 / p : ℝ) < r.small then
          r.small * previous_dt
        else if r.large < r.safety_scale * (1 / scaled_error) ^ (1 / p : ℝ) then
          r.large * previous_dt
        else r.safety_scale * (1 / scaled_error) ^ (1 / p : ℝ) * previous_dt) =
        AdaptiveSteps.suggest_spec_dt r previous_dt scaled_error p := by
    unfold AdaptiveSteps.suggest_spec_dt
    split_ifs with h1 h2
    · rw [min_eq_right (le_of_lt (lt_of_lt_of_le h1 hsl)), max_eq_left (le_of_lt h1)]
      ring
    · rw [min_eq_left (le_of_lt h2), max_eq_right hsl]
      ring
    · rw [min_eq_right (not_lt.mp h2), max_eq_right (not_lt.mp h1)]
      ring
  rw [AdaptiveSteps.suggest_eq, hbranch]
  constructor
  · rintro ⟨hlo, hhi⟩
    rw [if_neg (not_lt.mpr hlo), if_neg (not_lt.mpr hhi)]
  · intro hout
    by_cases hlt : AdaptiveSteps.suggest_spec_dt r previous_dt scaled_error p < r.min_step
    · rw [if_pos hlt]
      exact ⟨_, rfl⟩
    · rcases hout with hlo | hhi
      · exact absurd hlo hlt
      · rw [if_neg hlt, if_pos hhi]
        exact ⟨_, rfl⟩

/-- C5 witness: with the default parameters, `previous_dt = 1`,
`scaled_error = 1`, `p = 1`, the proposal `0.95` is inside the bounds and
`suggest` returns it. -/
theorem adaptive_suggest_spec_witness :
    AdaptiveSteps.suggest ⟨1/10000, 1/100, 1/5, 10, 19/20, 1/10^15, 10^15⟩ 1 1 1 =
      .ok (AdaptiveSteps.suggest_spec_dt ⟨1/10000, 1/100, 1/5, 10, 19/20, 1/10^15, 10^15⟩ 1 1 1) := by
  refine (adaptive_suggest_spec _ 1 1 1 one_pos one_pos (by norm_num)).1 ?_
  unfold AdaptiveSteps.suggest_spec_dt
  rw [show ((1 : ℝ) / 1) = 1 by norm_num, Real.one_rpow]
  norm_num [min_def, max_def]

/-- C6: when the safety factor and the lower change bound are below `1`, a
rejected step (`scaled_error ≥ 1`, i.e. not accepted) that does not raise is
retried with a strictly smaller step size. -/
theorem adaptive_suggest_shrinks_on_reject (r : AdaptiveParams)
    (previous_dt scaled_error p d : ℝ)
    (hsafe0 : 0 < r.safety_scale) (hsafe1 : r.safety_scale < 1) (hsmall : r.small < 1)
    (hprev : 0 < previous_dt) (hp : 1 ≤ p)
    (hrej : ¬ AdaptiveSteps.is_accepted scaled_error)
    (hok : AdaptiveSteps.suggest r previous_dt scaled_error p = .ok d) :
    d < previous_dt := by
  have herr : (1 : ℝ) ≤ scaled_error := not_lt.mp hrej
  have hx0 : (0 : ℝ) ≤ 1 / scaled_error := by positivity
  have hx1 : 1 / scaled_error ≤ 1 := by
    rw [div_le_one (lt_of_lt_of_le one_pos herr)]
    exact herr
  have hrpow : (1 / scaled_error) ^ (1 / p : ℝ) ≤ 1 :=
    Real.rpow_le_one hx0 hx1 (by positivity)
  have hchange : r.safety_scale * (1 / scaled_error) ^ (1 / p : ℝ) < 1 :=
    lt_of_le_of_lt (mul_le_of_le_one_right (le_of_lt hsafe0) hrpow) hsafe1
  rw [AdaptiveSteps.suggest_eq] at hok
  split_ifs at hok with h1 h2 h3 h4 h5 h6 h7 h8
  all_goals injection hok with hd
  all_goals subst hd
  · exact mul_lt_of_lt_one_left hprev hsmall
  · exact mul_lt_of_lt_one_left hprev (lt_trans h4 hchange)
  · exact mul_lt_of_lt_one_left hprev hchange

/-- C6 witness: default parameters, `previous_dt = 1`, `scaled_error = 4`,
`p = 1`: `suggest` returns `19/80 = 0.2375 < 1`. -/
theorem adaptive_suggest_shrinks_on_reject_witness :
    (19 : ℝ)/80 < 1 :=
  adaptive_suggest_shrinks_on_reject ⟨1/10000, 1/100, 1/5, 10, 19/20, 1/10^15, 10^15⟩
    1 4 1 (19/80) (by norm_num) (by norm_num) (by norm_num) one_pos le_rfl
    (by unfold AdaptiveSteps.is_accepted; norm_num)
    (by rw [AdaptiveSteps.suggest_eq]
        rw [show ((1 : ℝ) / 1) = 1 by norm_num, Real.rpow_one]
        norm_num)

lemma sum_sq_nonneg (l : List ℝ) : 0 ≤ sum_sq l := by
  apply List.sum_nonneg
  intro x hx
  simp only [List.mem_map] at hx
  obtain ⟨y, _, rfl⟩ := hx
  positivity

/-- C9 (code evaluation): with shapes `(1,)` and `(3,)` the guard of
`scale_error_estimate` does not fire — `jnp.isscalar(arr.size)` is `True` for
the Python `int` `arr.size`, so the first conjunct of the guard is always
false — the mismatched estimate is broadcast against the tolerance and a
value is returned instead of the claimed shape error. -/
theorem scale_error_estimate_no_shape_error :
    AdaptiveSteps.scale_error_estimate ⟨1, 0, 1/5, 10, 19/20, 0, 1⟩ [1] [2, 4, 8] =
      .ok 1 := by
  unfold AdaptiveSteps.scale_error_estimate
  rw [if_neg (by simp [jnp_isscalar_of_size])]
  norm_num [broadcast_div, sum_sq, List.headI]

/-- C4 counterexample: at `unscaled = [1]`, `reference = [-1]` with the default
tolerances, the source computes the tolerance `abstol + reltol * (-1) < 0`
from the signed reference state (no absolute value), returning `10000/99`,
not the claimed root-mean-square `10000/101` computed with `|reference|`. -/
theorem scale_error_estimate_abs_counterexample :
    AdaptiveSteps.scale_error_estimate ⟨1/10000, 1/100, 1/5, 10, 19/20, 0, 1⟩ [1] [-1] ≠
      .ok (Real.sqrt (((1 : ℝ) / (1/10000 + 1/100 * |(-1 : ℝ)|)) ^ 2 / 1)) := by
  unfold AdaptiveSteps.scale_error_estimate
  rw [if_neg (by simp [jnp_isscalar_of_size])]
  norm_num [broadcast_div, sum_sq]
  rw [show (100000000 : ℝ) = 10000 ^ 2 by norm_num,
    show (9801 : ℝ) = 99 ^ 2 by norm_num, show (10201 : ℝ) = 101 ^ 2 by norm_num,
    Real.sqrt_sq (by norm_num : (0:ℝ) ≤ 10000),
    Real.sqrt_sq (by norm_num : (0:ℝ) ≤ 99),
    Real.sqrt_sq (by norm_num : (0:ℝ) ≤ 101)]
  norm_num

/-- C4 (amended): for equal shapes, `scale_error_estimate` returns the
root-mean-square over the state dimension of `unscaled / tolerance`, with the
per-component tolerance `abstol + reltol * reference` computed from the
*signed* reference state — the source takes no absolute value. -/
theorem scale_error_estimate_rms (r : AdaptiveParams) (u ref : List ℝ)
    (hlen : u.length = ref.length) :
    AdaptiveSteps.scale_error_estimate r u ref =
      .ok (Real.sqrt
        (sum_sq (List.zipWith (fun x y => x / (r.abstol + r.reltol * y)) u ref) /
          u.length)) := by
  unfold AdaptiveSteps.scale_error_estimate
  rw [if_neg (by simp [jnp_isscalar_of_size])]
  have hbd : broadcast_div u (ref.map fun x => r.abstol + r.reltol * x) =
      some (List.zipWith (fun x y => x / (r.abstol + r.reltol * y)) u ref) := by
    unfold broadcast_div
    rw [if_pos (by simpa using hlen)]
    simp [List.zipWith_map_right]
  simp only [hbd]
  have hlen2 :
      (List.zipWith (fun x y => x / (r.abstol + r.reltol * y)) u ref).length = u.length := by
    rw [List.length_zipWith, hlen, min_self]
  rw [hlen2, Real.sqrt_div (sum_sq_nonneg _)]

/-- C4 witness: `unscaled = [2]`, `reference = [1]`, `abstol = 0`, `reltol = 1`
gives the root-mean-square `√(4/1) = 2`. -/
theorem scale_error_estimate_rms_witness :
    AdaptiveSteps.scale_error_estimate ⟨0, 1, 1/5, 10, 19/20, 0, 1⟩ [2] [1] = .ok 2 := by
  have h := scale_error_estimate_rms ⟨0, 1, 1/5, 10, 19/20, 0, 1⟩ [2] [1] rfl
  rw [h]
  norm_num [sum_sq]
  rw [show (4 : ℝ) = 2 ^ 2 by norm_num, Real.sqrt_sq (by norm_num : (0:ℝ) ≤ 2)]

lemma tril_outer_eq {n : ℕ} (R : Matrix (Fin n) (Fin n) ℝ) :
    tril_to_positive_tril R.transpose * (tril_to_positive_tril R.transpose)ᵀ =
      Rᵀ * R := by
  ext i j
  simp only [Matrix.mul_apply, Matrix.transpose_apply, tril_to_positive_tril]
  refine Finset.sum_congr rfl fun k _ => ?_
  split_ifs <;> ring

/-- C1: if `Q, R` is a QR factorization of the stack `[S1ᵀ; S2ᵀ]` — `Q` with
orthonormal columns, `R` upper triangular — then `propagate_cholesky_factor`
returns a lower-triangular matrix with nonnegative diagonal whose outer
product is `S1·S1ᵀ + S2·S2ᵀ`. -/
theorem propagate_cholesky_factor_spec {n m : ℕ} (S1 : Matrix (Fin n) (Fin n) ℝ)
    (S2 : Matrix (Fin n) (Fin m) ℝ) (Q : Matrix (Fin n ⊕ Fin m) (Fin n) ℝ)
    (R : Matrix (Fin n) (Fin n) ℝ) (hQ : Qᵀ * Q = 1)
    (hQR : cholesky_stack S1 S2 = Q * R) (hR : IsUpperTriangular R) :
    IsLowerTriangular (propagate_cholesky_factor S1 S2 R) ∧
      (∀ i, 0 ≤ propagate_cholesky_factor S1 S2 R i i) ∧
      propagate_cholesky_factor S1 S2 R * (propagate_cholesky_factor S1 S2 R)ᵀ =
        S1 * S1ᵀ + S2 * S2ᵀ := by
  refine ⟨?_, ?_, ?_⟩
  · intro i j hij
    unfold propagate_cholesky_factor tril_to_positive_tril
    simp only [Matrix.transpose_apply]
    rw [hR j i hij]
    ring
  · intro i
    unfold propagate_cholesky_factor tril_to_positive_tril
    simp only [Matrix.transpose_apply]
    split_ifs with h
    · nlinarith
    · nlinarith [not_lt.mp h]
  · unfold propagate_cholesky_factor
    rw [tril_outer_eq]
    have hstack : (cholesky_stack S1 S2)ᵀ * cholesky_stack S1 S2 =
        S1 * S1ᵀ + S2 * S2ᵀ := by
      unfold cholesky_stack
      rw [Matrix.transpose_fromRows, Matrix.fromColumns_mul_fromRows]
      simp
    rw [← hstack, hQR]
    rw [Matrix.transpose_mul, Matrix.mul_assoc, ← Matrix.mul_assoc Qᵀ Q R, hQ,
      Matrix.one_mul]

/-- C1 witness at `S1 = [[3]]`, `S2 = [[4]]` with the QR factorization
`Q = [[3/5],[4/5]]`, `R = [[5]]` of the stack `[[3],[4]]`. -/
theorem propagate_cholesky_factor_spec_witness :
    IsLowerTriangular (propagate_cholesky_factor !![(3:ℝ)] !![(4:ℝ)] !![(5:ℝ)]) ∧
      (∀ i, 0 ≤ propagate_cholesky_factor !![(3:ℝ)] !![(4:ℝ)] !![(5:ℝ)] i i) ∧
      propagate_cholesky_factor !![(3:ℝ)] !![(4:ℝ)] !![(5:ℝ)] *
          (propagate_cholesky_factor !![(3:ℝ)] !![(4:ℝ)] !![(5:ℝ)])ᵀ =
        !![(3:ℝ)] * !![(3:ℝ)]ᵀ + !![(4:ℝ)] * !![(4:ℝ)]ᵀ :=
  propagate_cholesky_factor_spec !![(3:ℝ)] !![(4:ℝ)]
    (Matrix.fromRows !![(3:ℝ)/5] !![(4:ℝ)/5]) !![(5:ℝ)]
    (by
      ext i j
      fin_cases i
      fin_cases j
      simp [Matrix.mul_apply, Fintype.sum_sum_type, Matrix.fromRows, Matrix.one_apply]
      norm_num)
    (by
      ext i j
      rcases i with i | i <;> fin_cases i <;> fin_cases j <;>
        simp [cholesky_stack, Matrix.mul_apply, Matrix.fromRows] <;> norm_num)
    (by
      intro i j hij
      fin_cases i <;> fin_cases j <;> simp_all)

lemma smoother_stack_gram {d : ℕ} (sc sc_fut sgain sq x : Matrix (Fin d) (Fin d) ℝ) :
    (smoother_stack sc sc_fut sgain sq x)ᵀ * smoother_stack sc sc_fut sgain sq x =
      Matrix.fromBlocks (x * xᵀ + sq * sqᵀ) (x * scᵀ)
        (sc * xᵀ) (sc * scᵀ + (sgain * sc_fut) * (sgain * sc_fut)ᵀ) := by
  unfold smoother_stack
  rw [Matrix.transpose_fromRows, Matrix.fromColumns_mul_fromRows,
    Matrix.fromBlocks_transpose, Matrix.fromBlocks_multiply,
    Matrix.transpose_fromColumns, Matrix.fromRows_mul_fromColumns]
  simp [Matrix.fromBlocks_add, Matrix.transpose_mul, Matrix.mul_assoc]

/-- C8 (amended): under the `filter_step` relationships — `x = Φ·sc`,
`scp·scpᵀ = x·xᵀ + sq·sqᵀ` invertible, `sgain = (x·scᵀ)·(scp·scpᵀ)⁻¹` — and
the QR contract for `R`, `smoother_step_sqrt` returns the same smoothed mean
as `smoother_step_traditional`, but its covariance factor `R[:d, d:].T`
reconstructs the Gram matrix `(x·scᵀ)ᵀ·(scp·scpᵀ)⁻¹·(x·scᵀ)` of the cross
block, not the traditional smoothed covariance. -/
theorem smoother_step_sqrt_amended {d : ℕ}
    (chol : Matrix (Fin d) (Fin d) ℝ → Matrix (Fin d) (Fin d) ℝ)
    (m m_fut mp : Fin d → ℝ)
    (sc sc_fut sgain sq x phi scp : Matrix (Fin d) (Fin d) ℝ)
    (R : Matrix (Fin d ⊕ Fin d) (Fin d ⊕ Fin d) ℝ)
    (_hx : x = phi * sc)
    (hscp : scp * scpᵀ = x * xᵀ + sq * sqᵀ)
    (_hsgain : sgain = (x * scᵀ) * (scp * scpᵀ)⁻¹)
    (hdet : IsUnit (scp * scpᵀ).det)
    (hR21 : R.toBlocks₂₁ = 0)
    (hQR : ∃ Q : Matrix ((Fin d ⊕ Fin d) ⊕ Fin d) (Fin d ⊕ Fin d) ℝ,
      Qᵀ * Q = 1 ∧ smoother_stack sc sc_fut sgain sq x = Q * R) :
    (smoother_step_sqrt m sc m_fut sc_fut sgain sq mp x R).1 =
        (smoother_step_traditional chol m sc m_fut sc_fut sgain mp scp).1 ∧
      (smoother_step_sqrt m sc m_fut sc_fut sgain sq mp x R).2 *
          ((smoother_step_sqrt m sc m_fut sc_fut sgain sq mp x R).2)ᵀ =
        (x * scᵀ)ᵀ * (scp * scpᵀ)⁻¹ * (x * scᵀ) := by
  obtain ⟨Q, hQ, hMQR⟩ := hQR
  refine ⟨rfl, ?_⟩
  have hgram : (smoother_stack sc sc_fut sgain sq x)ᵀ * smoother_stack sc sc_fut sgain sq x =
      Rᵀ * R := by
    rw [hMQR, Matrix.transpose_mul, Matrix.mul_assoc, ← Matrix.mul_assoc Qᵀ Q R, hQ,
      Matrix.one_mul]
  rw [smoother_stack_gram] at hgram
  have hRblocks : R =
      Matrix.fromBlocks R.toBlocks₁₁ R.toBlocks₁₂ 0 R.toBlocks₂₂ := by
    rw [← hR21, Matrix.fromBlocks_toBlocks]
  rw [hRblocks, Matrix.fromBlocks_transpose, Matrix.fromBlocks_multiply] at hgram
  simp only [Matrix.transpose_zero, Matrix.mul_zero, Matrix.zero_mul, add_zero,
    zero_add] at hgram
  have h11 : x * xᵀ + sq * sqᵀ = (R.toBlocks₁₁)ᵀ * R.toBlocks₁₁ := by
    have h := congrArg Matrix.toBlocks₁₁ hgram
    simpa [Matrix.toBlocks_fromBlocks₁₁] using h
  have h12 : x * scᵀ = (R.toBlocks₁₁)ᵀ * R.toBlocks₁₂ := by
    have h := congrArg Matrix.toBlocks₁₂ hgram
    simpa [Matrix.toBlocks_fromBlocks₁₂] using h
  have hdetA : IsUnit (R.toBlocks₁₁).det := by
    have h : (scp * scpᵀ).det = (R.toBlocks₁₁).det * (R.toBlocks₁₁).det := by
      rw [hscp, h11, Matrix.det_mul, Matrix.det_transpose]
    rw [h] at hdet
    exact isUnit_of_mul_isUnit_left hdet
  have hdetAT : IsUnit ((R.toBlocks₁₁)ᵀ).det := by
    rw [Matrix.det_transpose]
    exact hdetA
  have hB : R.toBlocks₁₂ = ((R.toBlocks₁₁)ᵀ)⁻¹ * (x * scᵀ) := by
    rw [h12, ← Matrix.mul_assoc, Matrix.nonsing_inv_mul _ hdetAT, Matrix.one_mul]
  simp only [smoother_step_sqrt]
  rw [Matrix.transpose_transpose, hB, Matrix.transpose_mul,
    Matrix.transpose_nonsing_inv, Matrix.transpose_transpose, hscp, h11,
    Matrix.mul_inv_rev]
  simp only [Matrix.mul_assoc]

/-- C8 witness: `d = 1`, `Φ = 0`, `sc = sq = sc_fut = scp = [[1]]`,
`sgain = [[0]]`, `R = I` (a valid QR factor of the stack, with `Q` the stack
itself): the amended statement holds. -/
theorem smoother_step_sqrt_amended_witness :
    (smoother_step_sqrt ![(0:ℝ)] !![(1:ℝ)] ![(0:ℝ)] !![(1:ℝ)] !![(0:ℝ)] !![(1:ℝ)]
          ![(0:ℝ)] !![(0:ℝ)] (1 : Matrix (Fin 1 ⊕ Fin 1) (Fin 1 ⊕ Fin 1) ℝ)).1 =
        (smoother_step_traditional id ![(0:ℝ)] !![(1:ℝ)] ![(0:ℝ)] !![(1:ℝ)] !![(0:ℝ)]
          ![(0:ℝ)] !![(1:ℝ)]).1 ∧
      (smoother_step_sqrt ![(0:ℝ)] !![(1:ℝ)] ![(0:ℝ)] !![(1:ℝ)] !![(0:ℝ)] !![(1:ℝ)]
            ![(0:ℝ)] !![(0:ℝ)] (1 : Matrix (Fin 1 ⊕ Fin 1) (Fin 1 ⊕ Fin 1) ℝ)).2 *
          ((smoother_step_sqrt ![(0:ℝ)] !![(1:ℝ)] ![(0:ℝ)] !![(1:ℝ)] !![(0:ℝ)] !![(1:ℝ)]
            ![(0:ℝ)] !![(0:ℝ)] (1 : Matrix (Fin 1 ⊕ Fin 1) (Fin 1 ⊕ Fin 1) ℝ)).2)ᵀ =
        (!![(0:ℝ)] * !![(1:ℝ)]ᵀ)ᵀ * (!![(1:ℝ)] * !![(1:ℝ)]ᵀ)⁻¹ *
          (!![(0:ℝ)] * !![(1:ℝ)]ᵀ) :=
  smoother_step_sqrt_amended id ![(0:ℝ)] ![(0:ℝ)] ![(0:ℝ)] !![(1:ℝ)] !![(1:ℝ)]
    !![(0:ℝ)] !![(1:ℝ)] !![(0:ℝ)] !![(0:ℝ)] !![(1:ℝ)]
    (1 : Matrix (Fin 1 ⊕ Fin 1) (Fin 1 ⊕ Fin 1) ℝ)
    (by ext i j; fin_cases i; fin_cases j; simp [Matrix.mul_apply, Matrix.vecHead])
    (by ext i j; fin_cases i; fin_cases j; simp [Matrix.mul_apply, Matrix.vecHead])
    (by ext i j; fin_cases i; fin_cases j; simp [Matrix.mul_apply, Matrix.vecHead])
    (by simp [Matrix.det_fin_one, Matrix.mul_apply, Matrix.vecHead])
    (by ext i j; simp [Matrix.toBlocks₂₁, Matrix.one_apply])
    ⟨smoother_stack !![(1:ℝ)] !![(1:ℝ)] !![(0:ℝ)] !![(1:ℝ)] !![(0:ℝ)],
      by
        rw [smoother_stack_gram]
        ext i j
        rcases i with i | i <;> rcases j with j | j <;> fin_cases i <;> fin_cases j <;>
          simp [Matrix.mul_apply, Matrix.one_apply, Matrix.vecHead]
      , (Matrix.mul_one _).symm⟩

/-- C8 counterexample: at the same concrete input — `Φ = 0`, all scalar factors
`1`, `sgain = 0`, `R = I` a valid QR factor of the stack — the factor returned
by `smoother_step_sqrt` has outer product `0`, while the traditional smoothed
covariance `sc·scᵀ − sgain·(scp·scpᵀ − sc_fut·sc_futᵀ)·sgainᵀ` is `1`: the
claimed equality of the two is false. -/
theorem smoother_step_sqrt_counterexample :
    !![(0:ℝ)] = !![(0:ℝ)] * !![(1:ℝ)] ∧
      !![(1:ℝ)] * !![(1:ℝ)]ᵀ = !![(0:ℝ)] * !![(0:ℝ)]ᵀ + !![(1:ℝ)] * !![(1:ℝ)]ᵀ ∧
      !![(0:ℝ)] = !![(0:ℝ)] * !![(1:ℝ)]ᵀ * (!![(1:ℝ)] * !![(1:ℝ)]ᵀ)⁻¹ ∧
      (1 : Matrix (Fin 1 ⊕ Fin 1) (Fin 1 ⊕ Fin 1) ℝ).toBlocks₂₁ = 0 ∧
      (∃ Q : Matrix ((Fin 1 ⊕ Fin 1) ⊕ Fin 1) (Fin 1 ⊕ Fin 1) ℝ,
        Qᵀ * Q = 1 ∧ smoother_stack !![(1:ℝ)] !![(1:ℝ)] !![(0:ℝ)] !![(1:ℝ)] !![(0:ℝ)] =
          Q * (1 : Matrix (Fin 1 ⊕ Fin 1) (Fin 1 ⊕ Fin 1) ℝ)) ∧
      ¬ ((smoother_step_sqrt ![(0:ℝ)] !![(1:ℝ)] ![(0:ℝ)] !![(1:ℝ)] !![(0:ℝ)] !![(1:ℝ)]
              ![(0:ℝ)] !![(0:ℝ)] (1 : Matrix (Fin 1 ⊕ Fin 1) (Fin 1 ⊕ Fin 1) ℝ)).2 *
            ((smoother_step_sqrt ![(0:ℝ)] !![(1:ℝ)] ![(0:ℝ)] !![(1:ℝ)] !![(0:ℝ)] !![(1:ℝ)]
              ![(0:ℝ)] !![(0:ℝ)] (1 : Matrix (Fin 1 ⊕ Fin 1) (Fin 1 ⊕ Fin 1) ℝ)).2)ᵀ =
          !![(1:ℝ)] * !![(1:ℝ)]ᵀ -
            !![(0:ℝ)] * (!![(1:ℝ)] * !![(1:ℝ)]ᵀ - !![(1:ℝ)] * !![(1:ℝ)]ᵀ) * !![(0:ℝ)]ᵀ) := by
  refine ⟨?_, ?_, ?_, ?_, ?_, ?_⟩
  · ext i j; fin_cases i; fin_cases j; simp [Matrix.mul_apply, Matrix.vecHead]
  · ext i j; fin_cases i; fin_cases j; simp [Matrix.mul_apply, Matrix.vecHead]
  · ext i j; fin_cases i; fin_cases j; simp [Matrix.mul_apply, Matrix.vecHead]
  · ext i j; simp [Matrix.toBlocks₂₁, Matrix.one_apply]
  · refine ⟨smoother_stack !![(1:ℝ)] !![(1:ℝ)] !![(0:ℝ)] !![(1:ℝ)] !![(0:ℝ)], ?_,
      (Matrix.mul_one _).symm⟩
    rw [smoother_stack_gram]
    ext i j
    rcases i with i | i <;> rcases j with j | j <;> fin_cases i <;> fin_cases j <;>
      simp [Matrix.mul_apply, Matrix.one_apply, Matrix.vecHead]
  · intro h
    have hB : (1 : Matrix (Fin 1 ⊕ Fin 1) (Fin 1 ⊕ Fin 1) ℝ).toBlocks₁₂ = 0 := by
      ext i j
      simp [Matrix.toBlocks₁₂, Matrix.one_apply]
    simp only [smoother_step_sqrt, hB, Matrix.transpose_zero, Matrix.zero_mul] at h
    have h00 := congrArg (fun M => M 0 0) h
    simp [Matrix.mul_apply, Matrix.vecHead] at h00

/-- C3 (code evaluation): a square-root smoother step on consistent filter
inputs (`d = 2`) stores the covariance factor `R[:d, d:].T = [[3/5, 16/25],
[0, 0]]`, whose above-diagonal entry `16/25` is nonzero: the stored factor is
not lower triangular, so the claimed lower-triangular invariant is not
re-established by `smoother_step_sqrt`. -/
theorem smoother_step_sqrt_factor_not_lower_triangular :
    smEx_Qᵀ * smEx_Q = 1 ∧
      smoother_stack smEx_sc 0 smEx_sgain smEx_sq smEx_x = smEx_Q * smEx_R ∧
      smEx_R.toBlocks₂₁ = 0 ∧
      IsUpperTriangular smEx_R.toBlocks₁₁ ∧ IsUpperTriangular smEx_R.toBlocks₂₂ ∧
      smEx_x = smEx_x * smEx_sc ∧
      smEx_scp * smEx_scpᵀ = smEx_x * smEx_xᵀ + smEx_sq * smEx_sqᵀ ∧
      smEx_sgain * (smEx_scp * smEx_scpᵀ) = smEx_x * smEx_scᵀ ∧
      ¬ IsLowerTriangular
        ((smoother_step_sqrt ![0, 0] smEx_sc ![0, 0] 0 smEx_sgain smEx_sq ![0, 0]
          smEx_x smEx_R).2) := by
  refine ⟨?_, ?_, ?_, ?_, ?_, ?_, ?_, ?_, ?_⟩
  · ext i j
    rcases i with i | i <;> rcases j with j | j <;> fin_cases i <;> fin_cases j <;>
      simp [smEx_Q, Matrix.mul_apply, Fintype.sum_sum_type, Fin.sum_univ_two,
        Matrix.fromRows_apply_inl, Matrix.fromRows_apply_inr,
        Matrix.fromColumns_apply_inl, Matrix.fromColumns_apply_inr,
        Matrix.fromBlocks_apply₁₁, Matrix.fromBlocks_apply₁₂,
        Matrix.fromBlocks_apply₂₁, Matrix.fromBlocks_apply₂₂,
        Matrix.one_apply] <;> norm_num
  · ext i j
    rcases i with (i | i) | i <;> rcases j with j | j <;> fin_cases i <;> fin_cases j <;>
      simp [smoother_stack, smEx_Q, smEx_R, smEx_sc, smEx_sq, smEx_x, smEx_sgain,
        Matrix.mul_apply, Fintype.sum_sum_type, Fin.sum_univ_two,
        Matrix.fromRows_apply_inl, Matrix.fromRows_apply_inr,
        Matrix.fromColumns_apply_inl, Matrix.fromColumns_apply_inr,
        Matrix.fromBlocks_apply₁₁, Matrix.fromBlocks_apply₁₂,
        Matrix.fromBlocks_apply₂₁, Matrix.fromBlocks_apply₂₂,
        Matrix.vecHead, Matrix.vecTail] <;> norm_num
  · ext i j
    simp [smEx_R, Matrix.toBlocks₂₁, Matrix.fromBlocks_apply₂₁]
  · intro i j hij
    fin_cases i <;> fin_cases j <;>
      simp_all [smEx_R, Matrix.toBlocks₁₁, Matrix.fromBlocks_apply₁₁]
  · intro i j hij
    fin_cases i <;> fin_cases j <;>
      simp_all [smEx_R, Matrix.toBlocks₂₂, Matrix.fromBlocks_apply₂₂]
  · ext i j
    fin_cases i <;> fin_cases j <;>
      simp [smEx_x, smEx_sc, Matrix.mul_apply, Fin.sum_univ_two, Matrix.vecHead,
        Matrix.vecTail] <;> norm_num
  · ext i j
    fin_cases i <;> fin_cases j <;>
      simp [smEx_scp, smEx_x, smEx_sq, Matrix.mul_apply, Fin.sum_univ_two,
        Matrix.vecHead, Matrix.vecTail] <;> norm_num
  · ext i j
    fin_cases i <;> fin_cases j <;>
      simp [smEx_sgain, smEx_scp, smEx_x, smEx_sc, Matrix.mul_apply,
        Fin.sum_univ_two, Matrix.vecHead, Matrix.vecTail] <;> norm_num
  · intro hlt
    have h01 := hlt 0 1 (by norm_num)
    simp [smoother_step_sqrt, smEx_R, Matrix.toBlocks₁₂,
      Matrix.fromBlocks_apply₁₂, Matrix.vecHead] at h01

/-- C2 (code evaluation): every call of `EK0.attempt_step` raises — its
first statement (`tornado/ek0.py` line 93) reads the unbound name `y` — so
the diffusion estimate `zᵀz / (H·Ql·Qlᵀ·Hᵀ)[0,0] / d` of lines 111-113 is
never computed, even though lines 103-117 textually implement exactly the
claimed calibration dataflow. -/
theorem ek0_attempt_step_raises {d q : ℕ} (ops : EK0Ops d q)
    (state : ODEFilterState d q) (dt : ℝ) :
    EK0.attempt_step ops state dt =
      Except.error ("NameError: y is not defined") :=
  rfl

/-- C10 (code evaluation): under the constant step rule the code returns no
state at all — `EK0.attempt_step` raises `NameError` at line 93 on every
call, so the `error_estimate = None` attachment of lines 130-134 is
unreachable — while `ConstantSteps.scale_error_estimate` does return `None`
for every input. -/
theorem ek0_constant_rule_no_state :
    EK0.attempt_step ek0_ops_ex ek0_state_ex 1 =
        Except.error ("NameError: y is not defined") ∧
      ∀ c : ℝ, ∀ u ref : List ℝ, ConstantSteps.scale_error_estimate c u ref = none :=
  ⟨rfl, fun _ _ _ => rfl⟩
